import Mathlib

/-!
Shallow embedding of the TamaOS core (clock, lattice, agent) from
`src/tamaos/timekeeping.py`, `src/tamaos/lattice.py` and `src/tamaos/agent.py`.

Python floats are modelled as exact rationals (`ℚ`); Python `int` as `ℤ`
(grid sizes as `ℕ`); a raised exception is modelled as `Option.none`
returned before/with whatever mutation the source had already performed;
`math.sin` is abstracted as a parameter function, since no claim depends on
its value.  Python dicts with fixed keys (`_grids`, the serialisation
payloads) become structures with one field per key; the `feed_window` dict
(arbitrary int keys, insertion ordered) becomes an association list.
-/

namespace TamaOS

/-- `_clamp(value, lo, hi) = max(lo, min(value, hi))` from both
`lattice.py` and `agent.py`. -/
def clamp (value lo hi : ℚ) : ℚ := max lo (min value hi)

/-- One channel grid: a list of rows of cells (Python `List[List[float]]`). -/
abbrev Grid := List (List ℚ)

/-- Indexed map over a list, starting at index `i`; models a
`for idx in range(n)` loop that rebinds each element from its index and
old value. -/
def mapIdxFrom (f : ℕ → α → β) : ℕ → List α → List β
  | _, [] => []
  | i, a :: l => f i a :: mapIdxFrom f (i + 1) l

/-- Apply a cell transformation `f y x value` to every cell of a grid. -/
def mapGrid (f : ℕ → ℕ → ℚ → ℚ) (g : Grid) : Grid :=
  mapIdxFrom (fun y row => mapIdxFrom (fun x v => f y x v) 0 row) 0 g

/-- `HOURS_PER_YEAR = 24 * 365` from `timekeeping.py`. -/
def HOURS_PER_YEAR : ℚ := 24 * 365

/-- State of `CenturyClock` (`timekeeping.py`).  `seconds_per_hour` and
`elapsed_real_seconds` are stored fields, as in the source, where they are
set in `__post_init__` and updated incrementally. -/
structure CenturyClock where
  century_real_seconds : ℚ
  total_hours : ℤ
  seconds_per_hour : ℚ
  elapsed_real_seconds : ℚ
  deriving DecidableEq, Repr

namespace CenturyClock

/-- `CenturyClock(century_real_seconds, total_hours)` construction including
`__post_init__`: rejects a non-positive century duration, derives
`seconds_per_hour` and `elapsed_real_seconds`. -/
def init (century_real_seconds : ℚ) (total_hours : ℤ) : Option CenturyClock :=
  if century_real_seconds ≤ 0 then none
  else
    let sph := century_real_seconds / (100 * HOURS_PER_YEAR)
    some ⟨century_real_seconds, total_hours, sph, total_hours * sph⟩

/-- `advance_hours(hours)`: rejects negative `hours`, otherwise bumps
`total_hours` and `elapsed_real_seconds`. -/
def advance_hours (c : CenturyClock) (hours : ℤ) : Option CenturyClock :=
  if hours < 0 then none
  else some { c with
    total_hours := c.total_hours + hours
    elapsed_real_seconds := c.elapsed_real_seconds + hours * c.seconds_per_hour }

/-- `age_years` property. -/
def age_years (c : CenturyClock) : ℚ :=
  min 100 (c.elapsed_real_seconds / c.century_real_seconds * 100)

/-- `age_hours` property. -/
def age_hours (c : CenturyClock) : ℤ := c.total_hours

/-- `century_progress` property. -/
def century_progress (c : CenturyClock) : ℚ := c.age_years / 100

end CenturyClock

/-- State of `Lattice` (`lattice.py`): the size and the `_grids` dict, whose
keys are always exactly `CHANNELS = ("mirror", "shard", "flux")` in that
insertion order. -/
structure Lattice where
  size : ℕ
  mirror : Grid
  shard : Grid
  flux : Grid
  deriving DecidableEq, Repr

namespace Lattice

/-- `Lattice.__init__(size)`: rejects sizes that are even or below 3, then
builds three square all-zero grids. -/
def init (size : ℕ) : Option Lattice :=
  if size < 3 ∨ size % 2 = 0 then none
  else
    let zero : Grid := List.replicate size (List.replicate size (0 : ℚ))
    some ⟨size, zero, zero, zero⟩

/-- Lookup of `self._grids[channel]`; `none` models the `KeyError`. -/
def grid? (l : Lattice) (channel : String) : Option Grid :=
  if channel = "mirror" then some l.mirror
  else if channel = "shard" then some l.shard
  else if channel = "flux" then some l.flux
  else none

/-- The per-cell update of the target channel inside `imprint`:
`distance` is the Manhattan distance from the centre, `influence` the
falloff-attenuated weight; cells with nonzero influence are clamped into
`[-10, 10]` after the deposit. -/
def imprintCell (centre : ℕ) (falloff weight polarity : ℚ) (y x : ℕ) (v : ℚ) : ℚ :=
  let distance : ℚ := ((Int.natAbs ((x : ℤ) - centre) + Int.natAbs ((y : ℤ) - centre) : ℕ) : ℚ)
  let influence := max 0 (weight - falloff * distance)
  if influence ≠ 0 then clamp (v + polarity * influence * 0.6) (-10) 10 else v

/-- The relaxation applied to every non-target channel by `imprint`. -/
def relaxGrid (g : Grid) : Grid := mapGrid (fun _ _ v => v * 0.985) g

/-- `Lattice.imprint(channel, intensity, focus)`.  `none` models the
`KeyError` on an unknown channel (raised before any mutation). -/
def imprint (l : Lattice) (channel : String) (intensity : ℚ) (focus : ℚ) : Option Lattice :=
  if (l.grid? channel).isNone then none
  else
    let centre := l.size / 2
    let falloff := max 0.1 (0.65 - focus * 0.05)
    let weight := max 0.05 (min |intensity| 5.0)
    let polarity : ℚ := if 0 ≤ intensity then 1 else -1
    let upd := fun g => mapGrid (imprintCell centre falloff weight polarity) g
    if channel = "mirror" then
      some { l with mirror := upd l.mirror, shard := relaxGrid l.shard, flux := relaxGrid l.flux }
    else if channel = "shard" then
      some { l with mirror := relaxGrid l.mirror, shard := upd l.shard, flux := relaxGrid l.flux }
    else
      some { l with mirror := relaxGrid l.mirror, shard := relaxGrid l.shard, flux := upd l.flux }

/-- `Lattice.decay(factor)`: every cell of every channel is multiplied by
`1 - factor`. -/
def decay (l : Lattice) (factor : ℚ) : Lattice :=
  let f := fun g => mapGrid (fun _ _ v => v * (1 - factor)) g
  { l with mirror := f l.mirror, shard := f l.shard, flux := f l.flux }

/-- `sum(sum(row) for row in grid)`. -/
def gridTotal (g : Grid) : ℚ := (g.map List.sum).sum

/-- Result of `Lattice.snapshot()`: the averages dict (in the fixed channel
order) and the dominant channel. -/
structure Snapshot where
  averages : List (String × ℚ)
  dominant : String
  deriving DecidableEq, Repr

/-- The `dominant_channel` selection loop of `snapshot()`: it iterates the
averages in insertion order (mirror, shard, flux) starting from
`dominant_value = -inf`, keeping the first channel whose average strictly
exceeds the best so far.  Since every rational beats `-inf`, the first
iteration always installs `mirror`. -/
def pickDominant (avgM avgS avgF : ℚ) : String :=
  let best1 : String × ℚ := ("mirror", avgM)
  let best2 : String × ℚ := if avgS > best1.2 then ("shard", avgS) else best1
  let best3 : String × ℚ := if avgF > best2.2 then ("flux", avgF) else best2
  best3.1

/-- `Lattice.snapshot()`: per-channel averages in the fixed dict order plus
the dominant channel. -/
def snapshot (l : Lattice) : Snapshot :=
  let n : ℚ := ((l.size * l.size : ℕ) : ℚ)
  let avgM := gridTotal l.mirror / n
  let avgS := gridTotal l.shard / n
  let avgF := gridTotal l.flux / n
  { averages := [("mirror", avgM), ("shard", avgS), ("flux", avgF)],
    dominant := pickDominant avgM avgS avgF }

end Lattice

/-- Configuration knobs from `config.py` that the agent reads
(`BURST_CAP_PER_HOUR`, `STASIS_FILL_RATE`, `STASIS_MAX_HOURS`). -/
structure Config where
  burstCapPerHour : ℚ
  stasisFillRate : ℚ
  stasisMaxHours : ℚ
  deriving DecidableEq, Repr

/-- The defaults of `config.py` when no environment override is set. -/
def defaultConfig : Config := ⟨1.0, 0.15, 72⟩

/-- The `payload` dict of a `KnowledgeEntry`: one constructor per payload
shape the agent produces (`feed`, `teach`, `add_concept`), plus the empty
dict used as a default by `Agent.from_dict`. -/
inductive KPayload where
  | feedP (channel descriptor : String) (requested delivered : ℚ)
  | teachP (token channel : String)
  | conceptP (text : String) (tags : List String) (channel : String)
  | emptyP
  deriving DecidableEq, Repr

/-- `KnowledgeEntry` dataclass from `agent.py`. -/
structure KnowledgeEntry where
  source : String
  payload : KPayload
  deriving DecidableEq, Repr

/-- The `feed_window` dict (`Dict[int, float]`): an insertion-ordered
association list with unique keys. -/
abbrev FeedWindow := List (ℤ × ℚ)

/-- `window.get(hour, 0.0)`. -/
def fwGet (w : FeedWindow) (k : ℤ) : ℚ :=
  ((w.find? (fun p => decide (p.1 = k))).map Prod.snd).getD 0

/-- `window[hour] = v` under dict semantics: replace in place when the key
is present, otherwise append. -/
def fwSet (w : FeedWindow) (k : ℤ) (v : ℚ) : FeedWindow :=
  if w.any (fun p => decide (p.1 = k)) then
    w.map (fun p => if p.1 = k then (k, v) else p)
  else w ++ [(k, v)]

/-- State of the `Agent` dataclass (`agent.py`), with its field defaults. -/
structure Agent where
  clock : CenturyClock
  lattice : Lattice
  hunger : ℚ := 35.0
  energy : ℚ := 65.0
  mood : ℚ := 50.0
  stasis : ℚ := 0.0
  feed_window : FeedWindow := []
  knowledge : List KnowledgeEntry := []
  deriving DecidableEq, Repr

namespace Agent

/-- One `_advance_hour` step.  `sinFn h` abstracts `math.sin(h / 12.0)`;
no claim depends on its value. -/
def advance_hour (cfg : Config) (sinFn : ℤ → ℚ) (a : Agent) : Agent :=
  let hour_index := a.clock.total_hours
  let mood_shift := -0.4 + 0.2 * sinFn hour_index
  let cutoff := hour_index - 24
  { a with
    hunger := clamp (a.hunger + 1.1) 0 100
    energy := clamp (a.energy - 0.9) 0 100
    mood := clamp (a.mood + mood_shift) 0 100
    stasis := clamp (a.stasis + cfg.stasisFillRate) 0 cfg.stasisMaxHours
    lattice := a.lattice.decay 0.012
    feed_window := a.feed_window.filter (fun p => cutoff ≤ p.1) }

/-- The loop body of `advance_time`: the clock advances by exactly one hour
(`advance_hours 1` never raises) and then `_advance_hour` runs. -/
def advanceSteps (cfg : Config) (sinFn : ℤ → ℚ) : ℕ → Agent → Agent
  | 0, a => a
  | n + 1, a =>
      advanceSteps cfg sinFn n
        (advance_hour cfg sinFn { a with clock := (a.clock.advance_hours 1).getD a.clock })

/-- `Agent.advance_time(hours)`: rejects negative `hours`, otherwise runs
`hours` sequential single-hour steps. -/
def advance_time (cfg : Config) (sinFn : ℤ → ℚ) (a : Agent) (hours : ℤ) : Option Agent :=
  if hours < 0 then none
  else some (advanceSteps cfg sinFn hours.toNat a)

/-- Outcome of a `feed` call: success with the delivered amount, the
burst-cap `ValueError` (raised before any mutation), or the `KeyError`
from `Lattice.imprint` on an unknown channel (raised after the window and
vitals were already mutated, so the effective amount was still recorded). -/
inductive FeedOutcome where
  | ok (delivered : ℚ)
  | burstErr
  | channelErr (delivered : ℚ)
  deriving DecidableEq, Repr

/-- `Agent.feed(channel, amount, descriptor)`, returning the state the
Python object holds when the call returns or raises, plus the outcome. -/
def feed (cfg : Config) (a : Agent) (channel : String) (amount : ℚ) (descriptor : String) :
    Agent × FeedOutcome :=
  let hour := a.clock.total_hours
  let window_amount := fwGet a.feed_window hour
  let available := max 0 (cfg.burstCapPerHour - window_amount)
  if available ≤ 0 then (a, .burstErr)
  else
    let effective := min amount available
    let a1 := { a with
      feed_window := fwSet a.feed_window hour (window_amount + effective)
      hunger := clamp (a.hunger - effective * 6.0) 0 100
      energy := clamp (a.energy + effective * 2.5) 0 100
      mood := clamp (a.mood + effective * 1.2) 0 100 }
    let focus : ℚ := if descriptor = "palindrome" then 0.1 else 0.0
    match a1.lattice.imprint channel (effective * 1.5) focus with
    | none => (a1, .channelErr effective)
    | some lat =>
        ({ a1 with
            lattice := lat
            knowledge := a1.knowledge ++
              [⟨"tablet.feed", .feedP channel descriptor amount effective⟩] },
          .ok effective)

/-- `_tags_to_channel(tags)` from `agent.py`: the lower-cased tag set is
checked against the three keyword sets, then the SIZE OF THE SET (number of
distinct lower-cased tags) mod 3 picks the fallback channel. -/
def tags_to_channel (tags : List String) : String :=
  let lowered := (tags.map String.toLower).dedup
  if lowered.any (fun t => ["mirror", "symmetry", "palindrome"].contains t) then "mirror"
  else if lowered.any (fun t => ["shard", "entropy", "wild"].contains t) then "shard"
  else if lowered.any (fun t => ["flux", "flow", "dream"].contains t) then "flux"
  else if lowered.length % 3 = 0 then "mirror"
  else if lowered.length % 3 = 1 then "shard"
  else "flux"

/-- `len(text.split())`: Python `str.split()` splits on whitespace runs and
drops empty pieces. -/
def wordCount (text : String) : ℕ :=
  ((text.split Char.isWhitespace).filter (fun s => s ≠ "")).length

/-- `Agent.add_concept(text, tags)`.  `tags or []` maps `None` to the empty
list.  `tags_to_channel` always returns a valid channel name, so the inner
`imprint` never raises and `getD` is never the fallback. -/
def add_concept (a : Agent) (text : String) (tags : Option (List String)) : Agent :=
  let tags := tags.getD []
  let channel := tags_to_channel tags
  let richness : ℚ := min 5.0 (1.0 + (wordCount text : ℚ) / 4)
  { a with
    mood := clamp (a.mood + richness * 0.6) 0 100
    energy := clamp (a.energy - 0.3 * richness) 0 100
    hunger := clamp (a.hunger + 0.2 * richness) 0 100
    lattice := (a.lattice.imprint channel richness 0.3).getD a.lattice
    knowledge := a.knowledge ++ [⟨"net.add", .conceptP text tags channel⟩] }

end Agent

/-- The `lattice` sub-dict of a persisted payload: a dict that may or may
not carry each channel key. -/
structure LatticePayload where
  mirror : Option Grid
  shard : Option Grid
  flux : Option Grid
  deriving DecidableEq, Repr

namespace LatticePayload

/-- Python truthiness of the dict: empty means falsy. -/
def isEmpty (p : LatticePayload) : Bool :=
  p.mirror.isNone && p.shard.isNone && p.flux.isNone

/-- `payload.values()`, keeping only the grids that are present. -/
def presentGrids (p : LatticePayload) : List Grid :=
  [p.mirror, p.shard, p.flux].filterMap id

end LatticePayload

namespace Lattice

/-- `Lattice.as_dict()`: the three grids, copied row by row. -/
def as_dict (l : Lattice) : LatticePayload :=
  ⟨some l.mirror, some l.shard, some l.flux⟩

/-- The per-channel row-length validation inside `Lattice.from_dict`. -/
def checkGrid (size : ℕ) (g : Grid) : Option Grid :=
  if g.any (fun row => row.length ≠ size) then none else some g

/-- One iteration of the `for channel in cls.CHANNELS` loop of
`Lattice.from_dict`: a supplied grid is validated and copied, a missing
channel keeps the freshly constructed zero grid. -/
def chanGrid (size : ℕ) (o : Option Grid) (fallback : Grid) : Option Grid :=
  match o with
  | some g => checkGrid size g
  | none => some fallback

/-- `Lattice.from_dict(payload)`: the set of row counts over the supplied
grids (`size_candidates`) must be a singleton, the resulting size must be
constructible, and every supplied grid must have rows of exactly that
length; missing channels keep the freshly constructed zero grid.  `none`
models every `ValueError` raised on the way. -/
def from_dict (p : LatticePayload) : Option Lattice :=
  match (p.presentGrids.map List.length).dedup with
  | [] => none
  | [size] =>
      (Lattice.init size).bind fun base =>
      (chanGrid size p.mirror base.mirror).bind fun m =>
      (chanGrid size p.shard base.shard).bind fun s =>
      (chanGrid size p.flux base.flux).bind fun f =>
      some { base with mirror := m, shard := s, flux := f }
  | _ => none

end Lattice

/-- The `clock` sub-dict of a persisted payload. -/
structure ClockPayload where
  century_real_seconds : Option ℚ
  total_hours : Option ℤ
  deriving DecidableEq, Repr

/-- One item of the persisted `knowledge` list. -/
structure KnowledgeItemPayload where
  source : Option String
  payload : Option KPayload
  deriving DecidableEq, Repr

/-- A persisted agent snapshot (the dict handled by `Agent.to_dict` /
`Agent.from_dict`); every key may be absent. -/
structure AgentPayload where
  clock : Option ClockPayload
  lattice : Option LatticePayload
  hunger : Option ℚ
  energy : Option ℚ
  mood : Option ℚ
  stasis : Option ℚ
  feed_window : Option FeedWindow
  knowledge : Option (List KnowledgeItemPayload)
  deriving DecidableEq, Repr

namespace Agent

/-- `Agent.to_dict()`: every key is emitted. -/
def to_dict (a : Agent) : AgentPayload where
  clock := some ⟨some a.clock.century_real_seconds, some a.clock.total_hours⟩
  lattice := some a.lattice.as_dict
  hunger := some a.hunger
  energy := some a.energy
  mood := some a.mood
  stasis := some a.stasis
  feed_window := some a.feed_window
  knowledge := some (a.knowledge.map fun e => ⟨some e.source, some e.payload⟩)

/-- `Agent.from_dict(payload)`: clock and lattice reconstruction may raise
(`none`); the vitals, feed window and knowledge log are copied with their
documented defaults and no clamping.  `payload.get("lattice") or {}`
makes an absent or empty lattice dict fall back to `Lattice()`, i.e.
`Lattice.init 5`. -/
def from_dict (p : AgentPayload) : Option Agent := do
  let cp := p.clock.getD ⟨none, none⟩
  let clock ← CenturyClock.init (cp.century_real_seconds.getD (30 * 24 * 3600))
    (cp.total_hours.getD 0)
  let lattice ← match p.lattice with
    | some lp => if lp.isEmpty then Lattice.init 5 else Lattice.from_dict lp
    | none => Lattice.init 5
  some { clock := clock
         lattice := lattice
         hunger := p.hunger.getD 35.0
         energy := p.energy.getD 65.0
         mood := p.mood.getD 50.0
         stasis := p.stasis.getD 0.0
         feed_window := p.feed_window.getD []
         knowledge := (p.knowledge.getD []).map fun item =>
           ⟨item.source.getD "unknown", item.payload.getD .emptyP⟩ }

end Agent

/-- A freshly constructed agent as `repl.py` builds it: default config
clock (`CENTURY_REAL_SEC = 30*24*3600` seconds, hour 0), default lattice
(`size = 5`), default vitals. -/
def freshAgent : Agent where
  clock := ⟨30 * 24 * 3600, 0, 30 * 24 * 3600 / (100 * HOURS_PER_YEAR), 0⟩
  lattice := ⟨5, List.replicate 5 (List.replicate 5 0),
    List.replicate 5 (List.replicate 5 0), List.replicate 5 (List.replicate 5 0)⟩

/-- The fresh clock and lattice agree with the checked constructors. -/
theorem freshAgent_wellFormed :
    CenturyClock.init (30 * 24 * 3600) 0 = some freshAgent.clock ∧
      Lattice.init 5 = some freshAgent.lattice := by
  constructor <;> simp [CenturyClock.init, Lattice.init, freshAgent]

/-! ### Boundedness of lattice cells (spec §8, first property) -/

/-- A cell value inside the documented `[-10, 10]` range. -/
def cellOK (v : ℚ) : Prop := -10 ≤ v ∧ v ≤ 10

/-- Every cell of a grid is in range. -/
def gridOK (g : Grid) : Prop := ∀ row ∈ g, ∀ v ∈ row, cellOK v

/-- Every cell of every channel is in range. -/
def Lattice.inRange (l : Lattice) : Prop :=
  gridOK l.mirror ∧ gridOK l.shard ∧ gridOK l.flux

instance : DecidablePred cellOK := fun _ => instDecidableAnd

instance : DecidablePred gridOK := fun _ => List.decidableBAll _ _

instance (l : Lattice) : Decidable l.inRange := instDecidableAnd

theorem clamp_le (v : ℚ) {lo hi : ℚ} (h : lo ≤ hi) : lo ≤ clamp v lo hi ∧ clamp v lo hi ≤ hi :=
  ⟨le_max_left _ _, max_le h (min_le_right _ _)⟩

theorem cellOK_mul {v c : ℚ} (hc : |c| ≤ 1) (hv : cellOK v) : cellOK (v * c) := by
  obtain ⟨h1, h2⟩ := hv
  obtain ⟨h3, h4⟩ := abs_le.mp hc
  constructor <;> nlinarith

theorem forall_mem_mapIdxFrom (P : β → Prop) (f : ℕ → α → β) (l : List α)
    (h : ∀ j a, a ∈ l → P (f j a)) : ∀ i, ∀ b ∈ mapIdxFrom f i l, P b := by
  induction l with
  | nil => intro i b hb; simp [mapIdxFrom] at hb
  | cons a l ih =>
      intro i b hb
      rcases (by simpa [mapIdxFrom] using hb : b = f i a ∨ b ∈ mapIdxFrom f (i + 1) l) with h1 | h1
      · exact h1 ▸ h i a (List.mem_cons_self a l)
      · exact ih (fun j x hx => h j x (List.mem_cons_of_mem a hx)) (i + 1) b h1

theorem gridOK_mapGrid {f : ℕ → ℕ → ℚ → ℚ}
    (hf : ∀ y x v, cellOK v → cellOK (f y x v)) {g : Grid} (hg : gridOK g) :
    gridOK (mapGrid f g) := by
  intro row hrow
  refine forall_mem_mapIdxFrom (fun r => ∀ v ∈ r, cellOK v)
    (fun y row => mapIdxFrom (fun x v => f y x v) 0 row) g (fun y r hr => ?_) 0 row hrow
  exact forall_mem_mapIdxFrom cellOK _ r (fun x w hw => hf y x w (hg r hr w hw)) 0

theorem gridOK_relaxGrid {g : Grid} (hg : gridOK g) : gridOK (Lattice.relaxGrid g) := by
  refine gridOK_mapGrid (fun _ _ v hv => cellOK_mul ?_ hv) hg
  rw [abs_of_nonneg] <;> norm_num

theorem gridOK_imprintCell (centre : ℕ) (falloff weight polarity : ℚ) {g : Grid}
    (hg : gridOK g) : gridOK (mapGrid (Lattice.imprintCell centre falloff weight polarity) g) := by
  refine gridOK_mapGrid (fun y x v hv => ?_) hg
  unfold Lattice.imprintCell
  dsimp only
  split
  · exact clamp_le _ (by norm_num)
  · exact hv

/-- `imprint` preserves the `[-10, 10]` invariant for every argument
combination. -/
theorem Lattice.imprint_inRange {l l' : Lattice} {channel : String} {intensity focus : ℚ}
    (h : l.imprint channel intensity focus = some l') (hl : l.inRange) : l'.inRange := by
  obtain ⟨hm, hs, hf⟩ := hl
  by_cases hc1 : channel = "mirror"
  · simp only [Lattice.imprint, Lattice.grid?, hc1, if_true, Option.isNone_some,
      Bool.false_eq_true, if_false, Option.some.injEq] at h
    rw [← h]
    exact ⟨gridOK_imprintCell _ _ _ _ hm, gridOK_relaxGrid hs, gridOK_relaxGrid hf⟩
  · by_cases hc2 : channel = "shard"
    · simp [Lattice.imprint, Lattice.grid?, hc1, hc2] at h
      rw [← h]
      exact ⟨gridOK_relaxGrid hm, gridOK_imprintCell _ _ _ _ hs, gridOK_relaxGrid hf⟩
    · by_cases hc3 : channel = "flux"
      · simp [Lattice.imprint, Lattice.grid?, hc1, hc2, hc3] at h
        rw [← h]
        exact ⟨gridOK_relaxGrid hm, gridOK_relaxGrid hs, gridOK_imprintCell _ _ _ _ hf⟩
      · simp [Lattice.imprint, Lattice.grid?, hc1, hc2, hc3] at h

/-- `decay` preserves the invariant as long as `1 - factor` has magnitude
at most one, i.e. `factor ∈ [0, 2]`. -/
theorem Lattice.decay_inRange {l : Lattice} {factor : ℚ} (h0 : 0 ≤ factor) (h2 : factor ≤ 2)
    (hl : l.inRange) : (l.decay factor).inRange := by
  obtain ⟨hm, hs, hf⟩ := hl
  have habs : |1 - factor| ≤ 1 := abs_le.mpr ⟨by linarith, by linarith⟩
  exact ⟨gridOK_mapGrid (fun _ _ v hv => cellOK_mul habs hv) hm,
    gridOK_mapGrid (fun _ _ v hv => cellOK_mul habs hv) hs,
    gridOK_mapGrid (fun _ _ v hv => cellOK_mul habs hv) hf⟩

theorem gridOK_zero (size : ℕ) : gridOK (List.replicate size (List.replicate size (0 : ℚ))) := by
  intro row hrow v hv
  rw [List.eq_of_mem_replicate hrow] at hv
  rw [List.eq_of_mem_replicate hv]
  exact ⟨by norm_num, by norm_num⟩

/-- A freshly constructed lattice satisfies the invariant. -/
theorem Lattice.init_inRange {size : ℕ} {l : Lattice} (h : Lattice.init size = some l) :
    l.inRange := by
  unfold Lattice.init at h
  split at h
  · exact absurd h (by simp)
  · cases h
    exact ⟨gridOK_zero size, gridOK_zero size, gridOK_zero size⟩

/-- One call of the claim's operation alphabet: `imprint` or `decay` with
arbitrary arguments. -/
inductive LatOp where
  | imprintOp (channel : String) (intensity focus : ℚ)
  | decayOp (factor : ℚ)
  deriving DecidableEq, Repr

/-- Run one call against a lattice object: a raising `imprint` (unknown
channel) leaves the object untouched. -/
def applyOp (l : Lattice) : LatOp → Lattice
  | .imprintOp c i f => (l.imprint c i f).getD l
  | .decayOp f => l.decay f

/-- Run a call sequence left to right. -/
def runOps (l : Lattice) (ops : List LatOp) : Lattice := ops.foldl applyOp l

/-- A decay factor within `[0, 2]`, so that `1 - factor` cannot amplify. -/
def LatOp.ok : LatOp → Prop
  | .imprintOp _ _ _ => True
  | .decayOp f => 0 ≤ f ∧ f ≤ 2

instance : DecidablePred LatOp.ok := fun op => by
  cases op with
  | imprintOp c i f => exact .isTrue trivial
  | decayOp f => exact instDecidableAnd

theorem applyOp_inRange {l : Lattice} {op : LatOp} (hop : op.ok) (hl : l.inRange) :
    (applyOp l op).inRange := by
  cases op with
  | imprintOp c i f =>
      cases h : l.imprint c i f with
      | none => simpa [applyOp, h] using hl
      | some l' => simpa [applyOp, h] using Lattice.imprint_inRange h hl
  | decayOp f => exact Lattice.decay_inRange hop.1 hop.2 hl

theorem runOps_inRange {l : Lattice} {ops : List LatOp} (hops : ∀ op ∈ ops, op.ok)
    (hl : l.inRange) : (runOps l ops).inRange := by
  induction ops generalizing l with
  | nil => exact hl
  | cons op ops ih =>
      exact ih (fun o ho => hops o (List.mem_cons_of_mem op ho))
        (applyOp_inRange (hops op (List.mem_cons_self op ops)) hl)

/-- A concrete 3×3 zero grid, used for concrete instantiations. -/
def zeroGrid3 : Grid := List.replicate 3 (List.replicate 3 (0 : ℚ))

/-- C1 (amended): for every valid lattice (odd size ≥ 3) and every sequence
of `imprint` and `decay` calls whose decay factors lie in `[0, 2]` (so that
`1 - factor` cannot amplify a cell), every cell of every channel grid
remains in `[-10.0, 10.0]` after each call.  `imprint` arguments are
unrestricted. -/
theorem lattice_cells_remain_bounded {size : ℕ} {l : Lattice}
    (hinit : Lattice.init size = some l) {ops : List LatOp}
    (hops : ∀ op ∈ ops, LatOp.ok op) : (runOps l ops).inRange :=
  runOps_inRange hops (Lattice.init_inRange hinit)

/-- Witness for `lattice_cells_remain_bounded`: a fresh size-3 lattice, one
imprint and one in-range decay. -/
theorem lattice_cells_remain_bounded_witness :
    (Lattice.init 3 = some ⟨3, zeroGrid3, zeroGrid3, zeroGrid3⟩ ∧
        ∀ op ∈ [LatOp.imprintOp "mirror" 5 0, LatOp.decayOp 0.5], LatOp.ok op) ∧
      (runOps ⟨3, zeroGrid3, zeroGrid3, zeroGrid3⟩
        [LatOp.imprintOp "mirror" 5 0, LatOp.decayOp 0.5]).inRange :=
  ⟨⟨by with_unfolding_all decide, by with_unfolding_all decide⟩,
    @lattice_cells_remain_bounded 3 ⟨3, zeroGrid3, zeroGrid3, zeroGrid3⟩
      (by with_unfolding_all decide) [LatOp.imprintOp "mirror" 5 0, LatOp.decayOp 0.5]
      (by with_unfolding_all decide)⟩

/-- C1 as stated is false: `decay` takes arbitrary factors, and a negative
factor amplifies cells past the bound.  On a fresh size-3 lattice,
`imprint("mirror", 5, 0)` puts `3.0` at the centre, and `decay(-10)`
multiplies every cell by `11`, driving the centre to `33 > 10`. -/
theorem lattice_cells_escape_range_counterexample :
    Lattice.init 3 = some ⟨3, zeroGrid3, zeroGrid3, zeroGrid3⟩ ∧
      ¬ (runOps ⟨3, zeroGrid3, zeroGrid3, zeroGrid3⟩
          [LatOp.imprintOp "mirror" 5 0, LatOp.decayOp (-10)]).inRange := by
  constructor
  · with_unfolding_all decide
  · with_unfolding_all decide

/-! ### Clock cap, tick identity, and scenario claims -/

/-- A sequence of `advance_hours` calls against one clock object; a raising
call (negative hours) leaves the object untouched. -/
def CenturyClock.runAdvances (c : CenturyClock) (hs : List ℤ) : CenturyClock :=
  hs.foldl (fun c h => (c.advance_hours h).getD c) c

theorem CenturyClock.advance_getD_elapsed {c : CenturyClock} {h : ℤ}
    (hc : c.elapsed_real_seconds = c.total_hours * c.seconds_per_hour) :
    let c' := (c.advance_hours h).getD c
    c'.elapsed_real_seconds = c'.total_hours * c'.seconds_per_hour ∧
      c'.seconds_per_hour = c.seconds_per_hour ∧
      c'.century_real_seconds = c.century_real_seconds := by
  unfold CenturyClock.advance_hours
  split
  · exact ⟨hc, rfl, rfl⟩
  · refine ⟨?_, rfl, rfl⟩
    simp only [Option.getD_some]
    push_cast
    rw [hc]
    ring

theorem CenturyClock.runAdvances_elapsed {c : CenturyClock} {hs : List ℤ}
    (hc : c.elapsed_real_seconds = c.total_hours * c.seconds_per_hour) :
    (c.runAdvances hs).elapsed_real_seconds
      = (c.runAdvances hs).total_hours * (c.runAdvances hs).seconds_per_hour := by
  induction hs generalizing c with
  | nil => exact hc
  | cons h hs ih => exact ih (CenturyClock.advance_getD_elapsed hc).1

/-- C8: for every clock constructed with positive `century_real_seconds`
and any sequence of non-negative `advance_hours` calls, `age_years` is
`min(100, elapsed_real_seconds / century_real_seconds * 100)` — with the
incrementally maintained `elapsed_real_seconds` agreeing with
`total_hours * seconds_per_hour` — and therefore never exceeds 100. -/
theorem clock_age_years_capped {cs : ℚ} {t0 : ℤ} {c : CenturyClock}
    (hinit : CenturyClock.init cs t0 = some c) {hs : List ℤ}
    (hpos : ∀ h ∈ hs, 0 ≤ h) :
    (c.runAdvances hs).age_years
        = min 100 ((c.runAdvances hs).elapsed_real_seconds
            / (c.runAdvances hs).century_real_seconds * 100) ∧
      (c.runAdvances hs).elapsed_real_seconds
        = (c.runAdvances hs).total_hours * (c.runAdvances hs).seconds_per_hour ∧
      (c.runAdvances hs).age_years ≤ 100 := by
  have hc : c.elapsed_real_seconds = c.total_hours * c.seconds_per_hour := by
    unfold CenturyClock.init at hinit
    split at hinit
    · exact absurd hinit (by simp)
    · cases hinit
      rfl
  exact ⟨rfl, CenturyClock.runAdvances_elapsed hc, min_le_left _ _⟩

/-- Witness for `clock_age_years_capped`: the default 30-day century clock
advanced by 5 hours and then 0 hours. -/
theorem clock_age_years_capped_witness :
    (CenturyClock.init 2592000 0
          = some ⟨2592000, 0, 2592000 / (100 * HOURS_PER_YEAR), 0⟩ ∧
        ∀ h ∈ [(5 : ℤ), 0], 0 ≤ h) ∧
      (CenturyClock.runAdvances ⟨2592000, 0, 2592000 / (100 * HOURS_PER_YEAR), 0⟩
          [(5 : ℤ), 0]).age_years ≤ 100 :=
  ⟨⟨by norm_num [CenturyClock.init], by decide⟩,
    (@clock_age_years_capped 2592000 0 ⟨2592000, 0, 2592000 / (100 * HOURS_PER_YEAR), 0⟩
      (by norm_num [CenturyClock.init]) [(5 : ℤ), 0] (by decide)).2.2⟩

/-- C9: `advance_time(0)` succeeds and returns the agent state unchanged —
clock, vitals, lattice, feed window and knowledge log included — for every
configuration, every abstraction of `sin`, and every agent state. -/
theorem advance_time_zero_identity (cfg : Config) (sinFn : ℤ → ℚ) (a : Agent) :
    a.advance_time cfg sinFn 0 = some a := rfl

/-- C7: a freshly constructed agent (hunger 35.0, energy 65.0) after
`advance_time(1)` has hunger exactly 36.1 and energy exactly 64.1,
regardless of the value of `sin`. -/
theorem fresh_agent_advance_one_vitals (sinFn : ℤ → ℚ) :
    (freshAgent.advance_time defaultConfig sinFn 1).map Agent.hunger = some 36.1 ∧
      (freshAgent.advance_time defaultConfig sinFn 1).map Agent.energy = some 64.1 := by
  constructor <;>
    · simp only [Agent.advance_time, Agent.advanceSteps, Agent.advance_hour,
        CenturyClock.advance_hours, freshAgent, defaultConfig, clamp]
      norm_num

/-- How every field of a successfully imported agent is derived from the
payload (shared by the vitals and round-trip claims). -/
theorem Agent.from_dict_fields {p : AgentPayload} {a : Agent}
    (ha : Agent.from_dict p = some a) :
    a.hunger = p.hunger.getD 35.0 ∧ a.energy = p.energy.getD 65.0 ∧
      a.mood = p.mood.getD 50.0 ∧ a.stasis = p.stasis.getD 0.0 ∧
      a.feed_window = p.feed_window.getD [] ∧
      a.knowledge = (p.knowledge.getD []).map
        (fun item => ⟨item.source.getD "unknown", item.payload.getD .emptyP⟩) ∧
      CenturyClock.init ((p.clock.getD ⟨none, none⟩).century_real_seconds.getD (30 * 24 * 3600))
          ((p.clock.getD ⟨none, none⟩).total_hours.getD 0) = some a.clock ∧
      (match p.lattice with
        | some lp => if lp.isEmpty then Lattice.init 5 else Lattice.from_dict lp
        | none => Lattice.init 5) = some a.lattice := by
  simp only [Agent.from_dict, bind, Option.bind_eq_some] at ha
  obtain ⟨clock, hclock, ha⟩ := ha
  rcases hpl : p.lattice with _ | lp <;> rw [hpl] at ha
  · obtain ⟨lat, hlat, ha⟩ := Option.bind_eq_some.mp ha
    cases ha
    exact ⟨rfl, rfl, rfl, rfl, rfl, rfl, hclock, hlat⟩
  · dsimp only at ha
    split at ha
    · rename_i hEmp
      obtain ⟨lat, hlat, ha⟩ := Option.bind_eq_some.mp ha
      cases ha
      refine ⟨rfl, rfl, rfl, rfl, rfl, rfl, hclock, ?_⟩
      dsimp only
      rw [if_pos hEmp]
      exact hlat
    · rename_i hEmp
      obtain ⟨lat, hlat, ha⟩ := Option.bind_eq_some.mp ha
      cases ha
      refine ⟨rfl, rfl, rfl, rfl, rfl, rfl, hclock, ?_⟩
      dsimp only
      rw [if_neg hEmp]
      exact hlat

/-- C10: `Agent.from_dict` copies the vitals from the payload verbatim,
with no clamping, whenever the reconstruction succeeds. -/
theorem from_dict_copies_vitals_unclamped {p : AgentPayload} {h e m s : ℚ}
    (hh : p.hunger = some h) (he : p.energy = some e) (hm : p.mood = some m)
    (hs : p.stasis = some s) {a : Agent} (ha : Agent.from_dict p = some a) :
    a.hunger = h ∧ a.energy = e ∧ a.mood = m ∧ a.stasis = s := by
  obtain ⟨h1, h2, h3, h4, -⟩ := Agent.from_dict_fields ha
  rw [hh] at h1
  rw [he] at h2
  rw [hm] at h3
  rw [hs] at h4
  exact ⟨h1, h2, h3, h4⟩

/-- A payload carrying out-of-range vitals, for the witness below. -/
def extremeVitalsPayload : AgentPayload :=
  ⟨some ⟨some 2592000, some 0⟩, none, some 250, some (-5), some 1000, some 9999,
    some [], some []⟩

/-- The agent that `extremeVitalsPayload` reconstructs to. -/
def extremeVitalsAgent : Agent :=
  ⟨⟨2592000, 0, 2592000 / (100 * HOURS_PER_YEAR), 0⟩,
    ⟨5, List.replicate 5 (List.replicate 5 0), List.replicate 5 (List.replicate 5 0),
      List.replicate 5 (List.replicate 5 0)⟩,
    250, -5, 1000, 9999, [], []⟩

/-- Witness for `from_dict_copies_vitals_unclamped`: hunger 250, energy -5,
mood 1000 and stasis 9999 survive the import untouched. -/
theorem from_dict_copies_vitals_unclamped_witness :
    (extremeVitalsPayload.hunger = some 250 ∧ extremeVitalsPayload.energy = some (-5) ∧
        extremeVitalsPayload.mood = some 1000 ∧ extremeVitalsPayload.stasis = some 9999 ∧
        Agent.from_dict extremeVitalsPayload = some extremeVitalsAgent) ∧
      extremeVitalsAgent.hunger = 250 ∧ extremeVitalsAgent.energy = -5 ∧
        extremeVitalsAgent.mood = 1000 ∧ extremeVitalsAgent.stasis = 9999 :=
  ⟨⟨rfl, rfl, rfl, rfl,
      by norm_num [Agent.from_dict, CenturyClock.init, Lattice.init, extremeVitalsPayload,
        extremeVitalsAgent, bind]⟩,
    @from_dict_copies_vitals_unclamped extremeVitalsPayload 250 (-5) 1000 9999 rfl rfl rfl rfl
      extremeVitalsAgent
      (by norm_num [Agent.from_dict, CenturyClock.init, Lattice.init, extremeVitalsPayload,
        extremeVitalsAgent, bind])⟩

/-! ### Channel selection fallback in add_concept -/

/-- When the lower-cased tag set misses all nine keywords, the fallback
channel is picked by the size of that set modulo 3. -/
theorem tags_to_channel_fallback {tags : List String}
    (hkw : ∀ t ∈ (tags.map String.toLower).dedup,
      t ∉ (["mirror", "symmetry", "palindrome", "shard", "entropy", "wild",
            "flux", "flow", "dream"] : List String)) :
    Agent.tags_to_channel tags =
      (if (tags.map String.toLower).dedup.length % 3 = 0 then "mirror"
        else if (tags.map String.toLower).dedup.length % 3 = 1 then "shard"
        else "flux") := by
  have h1 : ((tags.map String.toLower).dedup.any
      fun t => (["mirror", "symmetry", "palindrome"] : List String).contains t) = false := by
    simp only [List.any_eq_false]
    intro t ht
    have h := hkw t ht
    simp at h ⊢
    tauto
  have h2 : ((tags.map String.toLower).dedup.any
      fun t => (["shard", "entropy", "wild"] : List String).contains t) = false := by
    simp only [List.any_eq_false]
    intro t ht
    have h := hkw t ht
    simp at h ⊢
    tauto
  have h3 : ((tags.map String.toLower).dedup.any
      fun t => (["flux", "flow", "dream"] : List String).contains t) = false := by
    simp only [List.any_eq_false]
    intro t ht
    have h := hkw t ht
    simp at h ⊢
    tauto
  unfold Agent.tags_to_channel
  simp only [h1, h2, h3, Bool.false_eq_true, if_false]

/-- C5 (amended): when the supplied tags, after lower-casing, intersect
none of the three keyword sets, `add_concept` imprints (and records) the
channel selected by `d mod 3` with `0 → mirror, 1 → shard, 2 → flux`, where
`d` is the number of DISTINCT lower-cased tags (the code builds a set, so
duplicate and case-variant tags collapse). -/
theorem add_concept_fallback_channel {tags : List String}
    (hkw : ∀ t ∈ (tags.map String.toLower).dedup,
      t ∉ (["mirror", "symmetry", "palindrome", "shard", "entropy", "wild",
            "flux", "flow", "dream"] : List String)) (a : Agent) (text : String) :
    (a.add_concept text (some tags)).knowledge
      = a.knowledge ++ [⟨"net.add", .conceptP text tags
          (if (tags.map String.toLower).dedup.length % 3 = 0 then "mirror"
            else if (tags.map String.toLower).dedup.length % 3 = 1 then "shard"
            else "flux")⟩] := by
  unfold Agent.add_concept
  rw [Option.getD_some]
  dsimp only
  rw [tags_to_channel_fallback hkw]

/-- Witness for `add_concept_fallback_channel`: two keyword-free tags. -/
theorem add_concept_fallback_channel_witness :
    (∀ t ∈ ((["alpha", "beta"] : List String).map String.toLower).dedup,
        t ∉ (["mirror", "symmetry", "palindrome", "shard", "entropy", "wild",
              "flux", "flow", "dream"] : List String)) ∧
      (freshAgent.add_concept "hello world" (some ["alpha", "beta"])).knowledge
        = freshAgent.knowledge ++ [⟨"net.add", .conceptP "hello world" ["alpha", "beta"]
            (if ((["alpha", "beta"] : List String).map String.toLower).dedup.length % 3 = 0
              then "mirror"
              else if ((["alpha", "beta"] : List String).map String.toLower).dedup.length % 3 = 1
                then "shard"
              else "flux")⟩] :=
  ⟨by with_unfolding_all decide,
    add_concept_fallback_channel (by with_unfolding_all decide) freshAgent "hello world"⟩

/-- C5 as stated is false: it counts the tags as supplied, but the code
counts the distinct lower-cased tags.  With tags `["Echo", "echo"]`
(intersecting no keyword set) the claim predicts `2 mod 3 = 2 → flux`,
while the code collapses the set to `{"echo"}` and picks
`1 mod 3 = 1 → shard`. -/
theorem add_concept_fallback_counterexample :
    (freshAgent.add_concept "x" (some ["Echo", "echo"])).knowledge
        = [⟨"net.add", KPayload.conceptP "x" ["Echo", "echo"] "shard"⟩] ∧
      (["Echo", "echo"] : List String).length % 3 = 2 ∧
      ("shard" : String) ≠ "flux" := by
  refine ⟨?_, by decide, by decide⟩
  with_unfolding_all decide

/-! ### Dominant channel tie-break -/

theorem pickDominant_tie {m s f : ℚ}
    (htie : (m = max m (max s f) ∧ s = max m (max s f)) ∨
      (m = max m (max s f) ∧ f = max m (max s f)) ∨
      (s = max m (max s f) ∧ f = max m (max s f))) :
    Lattice.pickDominant m s f =
      (if m = max m (max s f) then "mirror"
        else if s = max m (max s f) then "shard" else "flux") := by
  unfold Lattice.pickDominant
  dsimp only
  by_cases h1 : m = max m (max s f)
  · have hs : s ≤ m := h1 ▸ le_trans (le_max_left s f) (le_max_right m (max s f))
    have hf : f ≤ m := h1 ▸ le_trans (le_max_right s f) (le_max_right m (max s f))
    rw [if_neg (not_lt.mpr hs), if_neg (not_lt.mpr hf), if_pos h1]
  · rcases htie with ⟨h, -⟩ | ⟨h, -⟩ | ⟨hs, hf⟩
    · exact absurd h h1
    · exact absurd h h1
    · have hmlt : m < s := hs ▸ lt_of_le_of_ne (le_max_left m (max s f)) h1
      have hfs : ¬ s < f := not_lt.mpr (le_of_eq (hf.trans hs.symm))
      rw [if_pos hmlt, if_neg hfs, if_neg h1, if_pos hs]

/-- C4: whenever two or more channels attain the maximal per-channel
average, `snapshot` reports as dominant the first of them in the fixed
priority order mirror, shard, flux; in particular, with all three averages
equal, `mirror` wins. -/
theorem snapshot_tie_break {l : Lattice} {m s f : ℚ}
    (hm : (l.snapshot).averages = [("mirror", m), ("shard", s), ("flux", f)])
    (htie : (m = max m (max s f) ∧ s = max m (max s f)) ∨
      (m = max m (max s f) ∧ f = max m (max s f)) ∨
      (s = max m (max s f) ∧ f = max m (max s f))) :
    (l.snapshot).dominant =
      (if m = max m (max s f) then "mirror"
        else if s = max m (max s f) then "shard" else "flux") := by
  unfold Lattice.snapshot at hm ⊢
  dsimp only at hm ⊢
  simp only [List.cons.injEq, Prod.mk.injEq, true_and, and_true, List.cons_ne_nil] at hm
  obtain ⟨h1, h2, h3⟩ := hm
  rw [h1, h2, h3]
  exact pickDominant_tie htie

/-- The all-zero 3×3 lattice, whose three averages tie at 0. -/
def zeroLattice3 : Lattice := ⟨3, zeroGrid3, zeroGrid3, zeroGrid3⟩

/-- Witness for `snapshot_tie_break`: on the all-zero lattice all three
averages are 0 and `mirror` is dominant. -/
theorem snapshot_tie_break_witness :
    ((zeroLattice3.snapshot).averages = [("mirror", 0), ("shard", 0), ("flux", 0)] ∧
        (((0 : ℚ) = max 0 (max 0 0) ∧ (0 : ℚ) = max 0 (max 0 0)) ∨
          ((0 : ℚ) = max 0 (max 0 0) ∧ (0 : ℚ) = max 0 (max 0 0)) ∨
          ((0 : ℚ) = max 0 (max 0 0) ∧ (0 : ℚ) = max 0 (max 0 0)))) ∧
      (zeroLattice3.snapshot).dominant =
        (if (0 : ℚ) = max 0 (max 0 0) then "mirror"
          else if (0 : ℚ) = max 0 (max 0 0) then "shard" else "flux") :=
  ⟨⟨by norm_num [Lattice.snapshot, Lattice.gridTotal, zeroLattice3, zeroGrid3], by simp⟩,
    snapshot_tie_break
      (by norm_num [Lattice.snapshot, Lattice.gridTotal, zeroLattice3, zeroGrid3])
      (Or.inl ⟨by simp, by simp⟩)⟩

/-! ### Burst-cap invariant of feed -/

/-- Amount actually delivered by one `feed` call: the effective amount when
the call got past the burst check (also when the lattice later raised on an
unknown channel, since the window and vitals were already mutated), zero
when the burst check raised. -/
def deliveredOf : Agent.FeedOutcome → ℚ
  | .ok d => d
  | .channelErr d => d
  | .burstErr => 0

/-- Run a sequence of `feed` calls against one agent, accumulating the
total delivered amount. -/
def runFeeds (cfg : Config) : Agent × ℚ → List (String × ℚ × String) → Agent × ℚ
  | st, [] => st
  | (a, acc), c :: cs =>
      let r := a.feed cfg c.1 c.2.1 c.2.2
      runFeeds cfg (r.1, acc + deliveredOf r.2) cs

theorem fwGet_cons_ne {p : ℤ × ℚ} {w : FeedWindow} {k : ℤ} (hp : p.1 ≠ k) :
    fwGet (p :: w) k = fwGet w k := by
  simp [fwGet, List.find?, hp]

theorem fwSet_cons_ne {p : ℤ × ℚ} {w : FeedWindow} {k : ℤ} {v : ℚ} (hp : p.1 ≠ k) :
    fwSet (p :: w) k v = p :: fwSet w k v := by
  by_cases hw : (w.any fun q => decide (q.1 = k)) = true
  · simp [fwSet, List.any_cons, hp, hw]
  · simp [fwSet, List.any_cons, hp, hw]

theorem fwGet_fwSet (w : FeedWindow) (k : ℤ) (v : ℚ) : fwGet (fwSet w k v) k = v := by
  induction w with
  | nil => simp [fwGet, fwSet, List.find?]
  | cons p w ih =>
      by_cases hp : p.1 = k
      · simp [fwSet, fwGet, List.any_cons, List.find?, hp]
      · rw [fwSet_cons_ne hp, fwGet_cons_ne hp]
        exact ih

/-- What one `feed` call does to the current hour's window entry: the clock
is untouched, the entry grows by exactly the delivered amount, and it never
ends above the burst cap when it started at or below it. -/
theorem feed_window_step (cfg : Config) (a : Agent) (ch : String) (amt : ℚ) (d : String) :
    (a.feed cfg ch amt d).1.clock = a.clock ∧
      fwGet (a.feed cfg ch amt d).1.feed_window a.clock.total_hours
        = fwGet a.feed_window a.clock.total_hours + deliveredOf (a.feed cfg ch amt d).2 ∧
      (fwGet a.feed_window a.clock.total_hours ≤ cfg.burstCapPerHour →
        fwGet (a.feed cfg ch amt d).1.feed_window a.clock.total_hours ≤ cfg.burstCapPerHour) := by
  unfold Agent.feed
  dsimp only
  by_cases hav : max 0 (cfg.burstCapPerHour - fwGet a.feed_window a.clock.total_hours) ≤ 0
  · rw [if_pos hav]
    exact ⟨rfl, by simp [deliveredOf], fun h => h⟩
  · rw [if_neg hav]
    have havail : max 0 (cfg.burstCapPerHour - fwGet a.feed_window a.clock.total_hours)
        = cfg.burstCapPerHour - fwGet a.feed_window a.clock.total_hours := by
      rcases max_cases 0 (cfg.burstCapPerHour - fwGet a.feed_window a.clock.total_hours) with
        ⟨h1, h2⟩ | ⟨h1, h2⟩
      · exact absurd (le_of_eq h1) hav
      · exact h1
    have hcap : fwGet a.feed_window a.clock.total_hours +
        min amt (max 0 (cfg.burstCapPerHour - fwGet a.feed_window a.clock.total_hours))
          ≤ cfg.burstCapPerHour := by
      rw [havail]
      have := min_le_right amt
        (cfg.burstCapPerHour - fwGet a.feed_window a.clock.total_hours)
      linarith
    cases himp : (Lattice.imprint a.lattice ch
        (min amt (max 0 (cfg.burstCapPerHour - fwGet a.feed_window a.clock.total_hours)) * 1.5)
        (if d = "palindrome" then 0.1 else 0.0)) with
    | none =>
        refine ⟨rfl, ?_, fun _ => ?_⟩ <;>
          simp [himp, deliveredOf, fwGet_fwSet, hcap]
    | some lat =>
        refine ⟨rfl, ?_, fun _ => ?_⟩ <;>
          simp [himp, deliveredOf, fwGet_fwSet, hcap]

theorem runFeeds_bound {cfg : Config} (hcap : 0 ≤ cfg.burstCapPerHour) :
    ∀ (calls : List (String × ℚ × String)) (a : Agent) (acc : ℚ),
      fwGet a.feed_window a.clock.total_hours = acc → acc ≤ cfg.burstCapPerHour →
      (runFeeds cfg (a, acc) calls).2 ≤ cfg.burstCapPerHour := by
  intro calls
  induction calls with
  | nil => intro a acc _ hle; exact hle
  | cons c cs ih =>
      intro a acc hacc hle
      obtain ⟨hclock, hgrow, hc⟩ := feed_window_step cfg a c.1 c.2.1 c.2.2
      have hacc' : fwGet (a.feed cfg c.1 c.2.1 c.2.2).1.feed_window
          (a.feed cfg c.1 c.2.1 c.2.2).1.clock.total_hours
            = acc + deliveredOf (a.feed cfg c.1 c.2.1 c.2.2).2 := by
        rw [hclock, hgrow, hacc]
      have hle' : acc + deliveredOf (a.feed cfg c.1 c.2.1 c.2.2).2 ≤ cfg.burstCapPerHour := by
        rw [← hacc']
        rw [hclock]
        exact hc (hacc ▸ hle)
      exact ih (a.feed cfg c.1 c.2.1 c.2.2).1 _ hacc' hle'

/-- C2: across any number of `feed` calls made while the clock's hour index
stays fixed (each call leaves the clock untouched), starting from a state
whose window holds nothing for the current hour, the cumulative delivered
amount stays at or below `burst_cap_per_hour` (assumed non-negative, as the
default 1.0 is), whatever amounts — including negative ones — are
requested. -/
theorem feed_burst_cap_respected {cfg : Config} (hcap : 0 ≤ cfg.burstCapPerHour) {a : Agent}
    (hzero : fwGet a.feed_window a.clock.total_hours = 0)
    (calls : List (String × ℚ × String)) :
    (runFeeds cfg (a, 0) calls).2 ≤ cfg.burstCapPerHour :=
  runFeeds_bound hcap calls a 0 hzero hcap

/-- Witness for `feed_burst_cap_respected`: a fresh agent fed 5.0 and then
0.5 in the same hour delivers at most the cap of 1.0 in total. -/
theorem feed_burst_cap_respected_witness :
    ((0 : ℚ) ≤ defaultConfig.burstCapPerHour ∧
        fwGet freshAgent.feed_window freshAgent.clock.total_hours = 0) ∧
      (runFeeds defaultConfig (freshAgent, 0)
          [("mirror", 5, "palindrome"), ("mirror", 0.5, "snack")]).2
        ≤ defaultConfig.burstCapPerHour :=
  ⟨⟨by norm_num [defaultConfig], rfl⟩,
    @feed_burst_cap_respected defaultConfig (by norm_num [defaultConfig]) freshAgent rfl
      [("mirror", 5, "palindrome"), ("mirror", 0.5, "snack")]⟩

/-! ### Shape validation in Lattice.from_dict -/

theorem Lattice.init_eq {size : ℕ} {l : Lattice} (h : Lattice.init size = some l) :
    l = ⟨size, List.replicate size (List.replicate size 0),
        List.replicate size (List.replicate size 0),
        List.replicate size (List.replicate size 0)⟩ ∧ 3 ≤ size ∧ size % 2 = 1 := by
  unfold Lattice.init at h
  split at h
  · exact absurd h (by simp)
  · rename_i hcond
    push_neg at hcond
    cases h
    exact ⟨rfl, hcond.1, Nat.mod_two_ne_zero.mp hcond.2⟩

theorem Lattice.checkGrid_eq_some {size : ℕ} {g g' : Grid}
    (h : Lattice.checkGrid size g = some g') :
    g' = g ∧ ∀ row ∈ g, row.length = size := by
  unfold Lattice.checkGrid at h
  split at h
  · exact absurd h (by simp)
  · rename_i hcond
    cases h
    refine ⟨rfl, fun row hrow => ?_⟩
    by_contra hne
    exact hcond (List.any_eq_true.mpr ⟨row, hrow, by simpa using hne⟩)

theorem Lattice.chanGrid_eq_some {size : ℕ} {o : Option Grid} {fb g' : Grid}
    (h : Lattice.chanGrid size o fb = some g') :
    (o = none ∧ g' = fb) ∨ (o = some g' ∧ ∀ row ∈ g', row.length = size) := by
  cases o with
  | none =>
      left
      cases h
      exact ⟨rfl, rfl⟩
  | some g =>
      right
      obtain ⟨rfl, hrows⟩ := Lattice.checkGrid_eq_some h
      exact ⟨rfl, hrows⟩

theorem mem_presentGrids {p : LatticePayload} {g : Grid} :
    g ∈ p.presentGrids ↔ p.mirror = some g ∨ p.shard = some g ∨ p.flux = some g := by
  rcases p with ⟨m, s, f⟩
  rcases m with _ | gm <;> rcases s with _ | gs <;> rcases f with _ | gf <;>
    simp [LatticePayload.presentGrids, eq_comm]

theorem dedup_eq_singleton {l : List ℕ} {n : ℕ} (hne : l ≠ []) (h : ∀ x ∈ l, x = n) :
    l.dedup = [n] := by
  induction l with
  | nil => exact absurd rfl hne
  | cons a l ih =>
      have ha : a = n := h a (List.mem_cons_self a l)
      cases l with
      | nil => simp [ha]
      | cons b m =>
          have hb : b = n := h b (List.mem_cons_of_mem a (List.mem_cons_self b m))
          have hmem : a ∈ b :: m := ha ▸ hb ▸ List.mem_cons_self b m
          rw [List.dedup_cons_of_mem hmem]
          exact ih (by simp) (fun x hx => h x (List.mem_cons_of_mem a hx))

/-- Everything a successful `Lattice.from_dict` guarantees: the supplied
row counts collapse to the resulting size, every supplied grid passed the
row-length check, and every grid of the result is exactly square. -/
theorem Lattice.from_dict_inv {p : LatticePayload} {l : Lattice}
    (h : Lattice.from_dict p = some l) :
    (p.presentGrids.map List.length).dedup = [l.size] ∧
      (∀ g ∈ p.presentGrids, g.length = l.size ∧ ∀ row ∈ g, row.length = l.size) ∧
      l.mirror.length = l.size ∧ (∀ row ∈ l.mirror, row.length = l.size) ∧
      l.shard.length = l.size ∧ (∀ row ∈ l.shard, row.length = l.size) ∧
      l.flux.length = l.size ∧ (∀ row ∈ l.flux, row.length = l.size) := by
  unfold Lattice.from_dict at h
  split at h
  · exact absurd h (by simp)
  case h_3 => exact absurd h (by simp)
  · rename_i size hd
    obtain ⟨base, hbase, h⟩ := Option.bind_eq_some.mp h
    obtain ⟨m, hm, h⟩ := Option.bind_eq_some.mp h
    obtain ⟨s, hs, h⟩ := Option.bind_eq_some.mp h
    obtain ⟨f, hf, h⟩ := Option.bind_eq_some.mp h
    cases h
    obtain ⟨rfl, -, -⟩ := Lattice.init_eq hbase
    have hglen : ∀ g ∈ p.presentGrids, g.length = size := by
      intro g hg
      have : g.length ∈ (p.presentGrids.map List.length).dedup :=
        List.mem_dedup.mpr (List.mem_map_of_mem List.length hg)
      rw [hd] at this
      exact List.mem_singleton.mp this
    have hrows : ∀ g ∈ p.presentGrids, ∀ row ∈ g, row.length = size := by
      intro g hg
      rcases mem_presentGrids.mp hg with hc | hc | hc
      · rcases Lattice.chanGrid_eq_some hm with ⟨hnone, -⟩ | ⟨hsome, hr⟩
        · rw [hc] at hnone; cases hnone
        · rw [hc] at hsome; cases hsome; exact hr
      · rcases Lattice.chanGrid_eq_some hs with ⟨hnone, -⟩ | ⟨hsome, hr⟩
        · rw [hc] at hnone; cases hnone
        · rw [hc] at hsome; cases hsome; exact hr
      · rcases Lattice.chanGrid_eq_some hf with ⟨hnone, -⟩ | ⟨hsome, hr⟩
        · rw [hc] at hnone; cases hnone
        · rw [hc] at hsome; cases hsome; exact hr
    have hrep : (List.replicate size (List.replicate size (0 : ℚ))).length = size ∧
        ∀ row ∈ List.replicate size (List.replicate size (0 : ℚ)), row.length = size := by
      refine ⟨List.length_replicate size _, fun row hrow => ?_⟩
      rw [List.eq_of_mem_replicate hrow]
      exact List.length_replicate size _
    have hmm : m.length = size ∧ ∀ row ∈ m, row.length = size := by
      rcases Lattice.chanGrid_eq_some hm with ⟨-, rfl⟩ | ⟨hsome, hr⟩
      · exact hrep
      · exact ⟨hglen m (mem_presentGrids.mpr (Or.inl hsome)), hr⟩
    have hss : s.length = size ∧ ∀ row ∈ s, row.length = size := by
      rcases Lattice.chanGrid_eq_some hs with ⟨-, rfl⟩ | ⟨hsome, hr⟩
      · exact hrep
      · exact ⟨hglen s (mem_presentGrids.mpr (Or.inr (Or.inl hsome))), hr⟩
    have hff : f.length = size ∧ ∀ row ∈ f, row.length = size := by
      rcases Lattice.chanGrid_eq_some hf with ⟨-, rfl⟩ | ⟨hsome, hr⟩
      · exact hrep
      · exact ⟨hglen f (mem_presentGrids.mpr (Or.inr (Or.inr hsome))), hr⟩
    exact ⟨hd, fun g hg => ⟨hglen g hg, hrows g hg⟩,
      hmm.1, hmm.2, hss.1, hss.2, hff.1, hff.2⟩

/-- C6: `Lattice.from_dict` fails whenever the supplied channel grids do
not all share one common size, fails whenever some supplied grid has a row
whose length differs from that common size, and on success every imported
grid is exactly `size × size`. -/
theorem lattice_from_dict_validates_shapes (p : LatticePayload) :
    ((∃ g1 ∈ p.presentGrids, ∃ g2 ∈ p.presentGrids, g1.length ≠ g2.length) →
        Lattice.from_dict p = none) ∧
      (∀ n, (∀ g ∈ p.presentGrids, g.length = n) →
        (∃ g ∈ p.presentGrids, ∃ row ∈ g, row.length ≠ n) → Lattice.from_dict p = none) ∧
      (∀ l, Lattice.from_dict p = some l →
        l.mirror.length = l.size ∧ (∀ row ∈ l.mirror, row.length = l.size) ∧
          l.shard.length = l.size ∧ (∀ row ∈ l.shard, row.length = l.size) ∧
          l.flux.length = l.size ∧ (∀ row ∈ l.flux, row.length = l.size)) := by
  refine ⟨fun ⟨g1, h1, g2, h2, hne⟩ => ?_, fun n hall ⟨g, hg, row, hrow, hne⟩ => ?_,
    fun l hres => ?_⟩
  · cases hres : Lattice.from_dict p with
    | none => rfl
    | some l =>
        obtain ⟨-, hpres, -⟩ := Lattice.from_dict_inv hres
        exact absurd ((hpres g1 h1).1.trans (hpres g2 h2).1.symm) hne
  · cases hres : Lattice.from_dict p with
    | none => rfl
    | some l =>
        obtain ⟨-, hpres, -⟩ := Lattice.from_dict_inv hres
        have h1 : row.length = l.size := (hpres g hg).2 row hrow
        have h2 : l.size = n := ((hall g hg).symm.trans (hpres g hg).1).symm
        exact absurd (h1.trans h2) hne
  · obtain ⟨-, -, hrest⟩ := Lattice.from_dict_inv hres
    exact hrest

/-- Two supplied grids with 2 and 3 rows: no common size. -/
def mismatchPayload : LatticePayload :=
  ⟨some [[0, 0], [0, 0]], some [[0, 0, 0], [0, 0, 0], [0, 0, 0]], none⟩

/-- A single 2-row grid whose first row has length 1 instead of 2. -/
def badRowPayload : LatticePayload := ⟨some [[0], [0, 0]], none, none⟩

/-- A single well-shaped 3×3 grid. -/
def goodPayload : LatticePayload := ⟨some [[1, 0, 0], [0, 2, 0], [0, 0, 3]], none, none⟩

/-- The lattice `goodPayload` imports to. -/
def goodLattice : Lattice := ⟨3, [[1, 0, 0], [0, 2, 0], [0, 0, 3]], zeroGrid3, zeroGrid3⟩

/-- Witness for `lattice_from_dict_validates_shapes`: a mismatched pair of
grids is rejected, a ragged grid is rejected, and a well-shaped import
comes out square. -/
theorem lattice_from_dict_validates_shapes_witness :
    ((∃ g1 ∈ mismatchPayload.presentGrids, ∃ g2 ∈ mismatchPayload.presentGrids,
          g1.length ≠ g2.length) ∧
        (∀ g ∈ badRowPayload.presentGrids, g.length = 2) ∧
        (∃ g ∈ badRowPayload.presentGrids, ∃ row ∈ g, row.length ≠ 2) ∧
        Lattice.from_dict goodPayload = some goodLattice) ∧
      Lattice.from_dict mismatchPayload = none ∧
      Lattice.from_dict badRowPayload = none ∧
      (goodLattice.mirror.length = goodLattice.size ∧
        (∀ row ∈ goodLattice.mirror, row.length = goodLattice.size) ∧
        goodLattice.shard.length = goodLattice.size ∧
        (∀ row ∈ goodLattice.shard, row.length = goodLattice.size) ∧
        goodLattice.flux.length = goodLattice.size ∧
        (∀ row ∈ goodLattice.flux, row.length = goodLattice.size)) :=
  ⟨⟨by with_unfolding_all decide, by with_unfolding_all decide, by with_unfolding_all decide,
      by with_unfolding_all decide⟩,
    (lattice_from_dict_validates_shapes mismatchPayload).1 (by with_unfolding_all decide),
    (lattice_from_dict_validates_shapes badRowPayload).2.1 2 (by with_unfolding_all decide)
      (by with_unfolding_all decide),
    (lattice_from_dict_validates_shapes goodPayload).2.2 goodLattice
      (by with_unfolding_all decide)⟩

/-! ### Serialisation round trip -/

/-- The shape invariant every Python-constructed lattice has: square grids
of the constructed odd size ≥ 3. -/
def Lattice.wellFormed (l : Lattice) : Prop :=
  l.mirror.length = l.size ∧ (∀ row ∈ l.mirror, row.length = l.size) ∧
    l.shard.length = l.size ∧ (∀ row ∈ l.shard, row.length = l.size) ∧
    l.flux.length = l.size ∧ (∀ row ∈ l.flux, row.length = l.size) ∧
    3 ≤ l.size ∧ l.size % 2 = 1

instance (l : Lattice) : Decidable l.wellFormed := by
  unfold Lattice.wellFormed
  infer_instance

theorem Lattice.checkGrid_of_rows {size : ℕ} {g : Grid}
    (hg : ∀ row ∈ g, row.length = size) : Lattice.checkGrid size g = some g := by
  unfold Lattice.checkGrid
  rw [if_neg]
  simp only [List.any_eq_true, decide_eq_true_eq, not_exists]
  intro row
  rintro ⟨hrow, hne⟩
  exact hne (hg row hrow)

theorem Lattice.roundtrip {l : Lattice} (hwf : l.wellFormed) :
    Lattice.from_dict l.as_dict = some ⟨l.size, l.mirror, l.shard, l.flux⟩ := by
  obtain ⟨hm1, hm2, hs1, hs2, hf1, hf2, hsz, hodd⟩ := hwf
  have hded : ((l.as_dict).presentGrids.map List.length).dedup = [l.size] := by
    show ([l.mirror, l.shard, l.flux].map List.length).dedup = [l.size]
    rw [List.map_cons, List.map_cons, List.map_cons, List.map_nil, hm1, hs1, hf1]
    refine dedup_eq_singleton (by simp) ?_
    intro x hx
    rcases List.mem_cons.mp hx with h | hx
    · exact h
    rcases List.mem_cons.mp hx with h | hx
    · exact h
    rcases List.mem_cons.mp hx with h | hx
    · exact h
    · exact absurd hx (List.not_mem_nil x)
  have hinit : Lattice.init l.size
      = some ⟨l.size, List.replicate l.size (List.replicate l.size 0),
          List.replicate l.size (List.replicate l.size 0),
          List.replicate l.size (List.replicate l.size 0)⟩ := by
    unfold Lattice.init
    rw [if_neg (by omega)]
  unfold Lattice.from_dict
  rw [hded]
  dsimp only
  rw [hinit, Option.some_bind]
  show (Lattice.checkGrid l.size l.mirror).bind _ = _
  rw [Lattice.checkGrid_of_rows hm2, Option.some_bind]
  show (Lattice.checkGrid l.size l.shard).bind _ = _
  rw [Lattice.checkGrid_of_rows hs2, Option.some_bind]
  show (Lattice.checkGrid l.size l.flux).bind _ = _
  rw [Lattice.checkGrid_of_rows hf2, Option.some_bind]

/-- C3: exporting an agent with `to_dict` and importing the result with
`from_dict` succeeds and reproduces the vitals, the lattice (grids
included, by structure eta), the feed window and the knowledge log exactly;
the clock is rebuilt from its century duration and hour count. -/
theorem agent_to_dict_roundtrip {a : Agent} (hwf : a.lattice.wellFormed)
    (hc : 0 < a.clock.century_real_seconds) :
    Agent.from_dict a.to_dict
      = some ⟨⟨a.clock.century_real_seconds, a.clock.total_hours,
          a.clock.century_real_seconds / (100 * HOURS_PER_YEAR),
          a.clock.total_hours * (a.clock.century_real_seconds / (100 * HOURS_PER_YEAR))⟩,
        a.lattice, a.hunger, a.energy, a.mood, a.stasis, a.feed_window, a.knowledge⟩ := by
  have hinit : CenturyClock.init a.clock.century_real_seconds a.clock.total_hours
      = some ⟨a.clock.century_real_seconds, a.clock.total_hours,
          a.clock.century_real_seconds / (100 * HOURS_PER_YEAR),
          a.clock.total_hours * (a.clock.century_real_seconds / (100 * HOURS_PER_YEAR))⟩ := by
    unfold CenturyClock.init
    rw [if_neg (not_le.mpr hc)]
  have hlat : Lattice.from_dict (a.lattice.as_dict)
      = some ⟨a.lattice.size, a.lattice.mirror, a.lattice.shard, a.lattice.flux⟩ :=
    Lattice.roundtrip hwf
  unfold Agent.from_dict Agent.to_dict
  dsimp only [Option.getD_some]
  rw [hinit]
  dsimp only [bind, Option.some_bind, LatticePayload.isEmpty, Lattice.as_dict,
    Option.isNone_some, Bool.false_and, Bool.and_false]
  rw [if_neg (by simp)]
  rw [show Lattice.from_dict ⟨some a.lattice.mirror, some a.lattice.shard, some a.lattice.flux⟩
      = some ⟨a.lattice.size, a.lattice.mirror, a.lattice.shard, a.lattice.flux⟩ from hlat]
  dsimp only [Option.some_bind, Option.getD_some]
  simp only [List.map_map, Option.some.injEq]
  have hmap : ((fun item : KnowledgeItemPayload =>
      (⟨item.source.getD "unknown", item.payload.getD KPayload.emptyP⟩ : KnowledgeEntry)) ∘
      fun e : KnowledgeEntry => (⟨some e.source, some e.payload⟩ : KnowledgeItemPayload)) = id :=
    funext fun e => rfl
  rw [hmap, List.map_id]

/-- Witness for `agent_to_dict_roundtrip`: the fresh agent survives the
round trip. -/
theorem agent_to_dict_roundtrip_witness :
    (freshAgent.lattice.wellFormed ∧ 0 < freshAgent.clock.century_real_seconds) ∧
      Agent.from_dict freshAgent.to_dict
        = some ⟨⟨freshAgent.clock.century_real_seconds, freshAgent.clock.total_hours,
            freshAgent.clock.century_real_seconds / (100 * HOURS_PER_YEAR),
            freshAgent.clock.total_hours *
              (freshAgent.clock.century_real_seconds / (100 * HOURS_PER_YEAR))⟩,
          freshAgent.lattice, freshAgent.hunger, freshAgent.energy, freshAgent.mood,
          freshAgent.stasis, freshAgent.feed_window, freshAgent.knowledge⟩ :=
  ⟨⟨by with_unfolding_all decide, by norm_num [freshAgent]⟩,
    agent_to_dict_roundtrip (by with_unfolding_all decide) (by norm_num [freshAgent])⟩

end TamaOS
